import Mathlib

/-!
# Verification of the Disguise traffic-obfuscation engine

A shallow embedding of the core of the `uDisguise/disguise` Go repository:
the cell wire codec (`EncodeCell` / `DecodeCell`), fragmentation
(`Framer.Fragment`, `Framer.CreateDummyCell`), reassembly
(`Reassembler.ProcessCell`), the transmission scheduler
(`Scheduler.ScheduleCell` / `GetNextCell`), the traffic profile sampler
(`Profile.GetNextPayloadLength` with its EWMA load update), and the HMM
classifier (`HMMClassifier.Predict`).

Modelling conventions:
* Machine integers are `Nat` with explicit `% 2^w` at the places where the
  Go code performs fixed-width arithmetic (`uint16` sums, `uint32`
  sequence numbers); conversions of possibly-negative Go `int` values to
  `uint16` use `Int.emod`.
* Bytes are `Fin 256`; Go byte slices are `List Byte`.
* A Go function that can panic at runtime (slice index out of range,
  `rand.Intn` with non-positive argument) is modelled with `Option`:
  `none` is an uncontrolled runtime panic, which is *not* an error
  return.  Functions that additionally return Go `error` values return
  `Option (Except E A)`: `some (.error e)` is a returned error,
  `some (.ok a)` a normal return, `none` a panic.
* Go `float64` values (the EWMA load, HMM probabilities) are modelled as
  exact rationals `ℚ`; the HMM's log-domain scores are modelled in the
  order-isomorphic product domain (`log p + log q` becomes `p * q`),
  which preserves the control flow of the Viterbi loops for the
  positive, ε-smoothed probability tables the classifier uses.
* Random draws (`math/rand`, `crypto/rand`) are supplied explicitly as
  oracle arguments: `rand.Intn n` applied to an oracle value `u` is
  `u % n`, and `crypto/rand` byte streams are functions `Nat → Byte`.
  The floating-point payload-length distributions are not modelled; the
  oracle directly supplies the integer value that `dist.Sample()`
  returned, and the code's clamping of that value is modelled exactly.
-/

abbrev Byte := Fin 256

def b0 : Byte := ⟨0, by decide⟩

/-- Go `copy(dst, src)`: overwrite the prefix of `dst` with `src`,
truncating to the shorter of the two; the length of `dst` is preserved. -/
def goCopy (dst src : List Byte) : List Byte :=
  src.take dst.length ++ dst.drop src.length

/-- Go slice expression `s[a:b]`; `none` models the runtime panic when
`a > b` or `b > len(s)`. -/
def goSlice (s : List Byte) (a b : Nat) : Option (List Byte) :=
  if a ≤ b ∧ b ≤ s.length then some ((s.drop a).take (b - a)) else none

/-- Go `copy(arr[k:], src)` for `k ≤ arr.length`: the write-through into
the underlying array. -/
def copyAt (arr : List Byte) (k : Nat) (src : List Byte) : List Byte :=
  arr.take k ++ goCopy (arr.drop k) src

/-- Big-endian serialization of the low `w` bytes of `n`
(`encoding/binary.Write` with `BigEndian`). -/
def beBytes : Nat → Nat → List Byte
  | 0, _ => []
  | w + 1, n => ⟨(n / 256 ^ w) % 256, Nat.mod_lt _ (by decide)⟩ :: beBytes w n

/-- Big-endian value of a byte string (`encoding/binary.Read`). -/
def beVal (bs : List Byte) : Nat :=
  bs.foldl (fun acc b => acc * 256 + b.val) 0

/-- The `Cell` struct of `disguise/framing`: all integer fields are kept
as `Nat` (width behaviour is applied where the Go code applies it). -/
structure Cell where
  cellID : Nat
  type : Nat
  flags : Nat
  seq : Nat
  timestamp : Nat
  payloadLen : Nat
  paddingLen : Nat
  randOffset : Nat
  payload : List Byte
  padding : List Byte
deriving Repr, DecidableEq

/-- The serialized header, in the order `EncodeCell` writes the fields:
cellID(2) type(1) flags(1) seq(4) timestamp(8) payloadLen(2)
paddingLen(2) randOffset(2) — 22 bytes in total, even though the code's
`CellHeaderLen` constant is 20. -/
def encHeader (c : Cell) : List Byte :=
  beBytes 2 c.cellID ++ beBytes 1 c.type ++ beBytes 1 c.flags ++
  beBytes 4 c.seq ++ beBytes 8 c.timestamp ++ beBytes 2 c.payloadLen ++
  beBytes 2 c.paddingLen ++ beBytes 2 c.randOffset

/-- `Framer.EncodeCell`: header, then a content region of
`payloadLen+paddingLen` (uint16 sum) bytes holding
`padding[:randOffset] ++ payload ++ padding[randOffset:]`, written with
three `copy` calls.  `none` models the slice-bounds panics the Go code
hits when `randOffset` exceeds the content length or the padding
length. -/
def EncodeCell (c : Cell) : Option (List Byte) :=
  let total := (c.payloadLen + c.paddingLen) % 65536
  let tc0 : List Byte := List.replicate total b0
  -- copy(totalContent[randOffset:], payload)
  if c.randOffset ≤ total then
    let tc1 := copyAt tc0 c.randOffset c.payload
    -- copy(totalContent, padding[:randOffset])
    if c.randOffset ≤ c.padding.length then
      let tc2 := goCopy tc1 (c.padding.take c.randOffset)
      -- copy(totalContent[randOffset+payloadLen:], padding[randOffset:])
      let k := (c.randOffset + c.payloadLen) % 65536
      if k ≤ tc2.length then
        some (encHeader c ++ copyAt tc2 k (c.padding.drop c.randOffset))
      else none
    else none
  else none

/-- The error returns of `Framer.DecodeCell`: `tooShort` is
"cell data too short", `readFail` is the `binary.Read` unexpected-EOF
error on inputs of 20 or 21 bytes, `lengthMismatch` is
"cell content length mismatch". -/
inductive DErr
  | tooShort
  | readFail
  | lengthMismatch
deriving Repr, DecidableEq

/-- `Framer.DecodeCell`: parses the 22 header bytes with `binary.Read`,
but then takes the content region as `data[CellHeaderLen:]` with
`CellHeaderLen = 20`, exactly as the code does.  `none` models the
slice-bounds panics of the three trailing `copy` lines. -/
def DecodeCell (data : List Byte) : Option (Except DErr Cell) :=
  if data.length < 20 then some (Except.error DErr.tooShort)
  else if data.length < 22 then some (Except.error DErr.readFail)
  else
    let cellID := beVal (data.take 2)
    let ty := beVal ((data.drop 2).take 1)
    let flags := beVal ((data.drop 3).take 1)
    let seq := beVal ((data.drop 4).take 4)
    let timestamp := beVal ((data.drop 8).take 8)
    let payloadLen := beVal ((data.drop 16).take 2)
    let paddingLen := beVal ((data.drop 18).take 2)
    let randOffset := beVal ((data.drop 20).take 2)
    let pp := data.drop 20
    if pp.length ≠ (payloadLen + paddingLen) % 65536 then
      some (Except.error DErr.lengthMismatch)
    else
      -- copy(cell.Payload, payloadAndPadding[randOffset:randOffset+payloadLen])
      let k := (randOffset + payloadLen) % 65536
      match goSlice pp randOffset k with
      | none => none
      | some s1 =>
        -- copy(cell.Padding, payloadAndPadding[:randOffset])
        match goSlice pp 0 randOffset with
        | none => none
        | some s2 =>
          -- copy(cell.Padding[randOffset:], payloadAndPadding[randOffset+payloadLen:])
          if randOffset ≤ paddingLen then
            match goSlice pp k pp.length with
            | none => none
            | some s3 =>
              some (Except.ok
                { cellID := cellID, type := ty, flags := flags, seq := seq,
                  timestamp := timestamp, payloadLen := payloadLen,
                  paddingLen := paddingLen, randOffset := randOffset,
                  payload := goCopy (List.replicate payloadLen b0) s1,
                  padding := copyAt (goCopy (List.replicate paddingLen b0) s2)
                                randOffset s3 })
          else none

/-- A consistent test cell: declared lengths match the slices and
`randOffset = 1` lies inside the content region `[0, 3)`. -/
def cellC1 : Cell :=
  { cellID := 1, type := 1, flags := 0, seq := 0, timestamp := 0,
    payloadLen := 1, paddingLen := 2, randOffset := 1,
    payload := [⟨42, by decide⟩], padding := [⟨7, by decide⟩, ⟨9, by decide⟩] }

/-- C1: `DecodeCell (EncodeCell cellC1)` returns the content-length
mismatch error instead of the original cell: `EncodeCell` writes a
22-byte header (the eight fields occupy 2+1+1+4+8+2+2+2 bytes) while
`DecodeCell` strips only `CellHeaderLen = 20` bytes before comparing the
content length against `payloadLen+paddingLen`, so the round-trip fails
for every cell. -/
theorem decode_encode_fails_length_check :
    (EncodeCell cellC1).bind DecodeCell = some (Except.error DErr.lengthMismatch) := by
  rfl

/-- Convenience constructor for byte-string literals. -/
def bytes (l : List Nat) : List Byte :=
  l.map (fun n => ⟨n % 256, Nat.mod_lt _ (by decide)⟩)

/-- A 24-byte input whose header declares `payloadLen = 3`,
`paddingLen = 1`, `randOffset = 2`: the content region `data[20:]` has
length `4 = 3 + 1`, so the length check passes, but
`randOffset + payloadLen = 5` exceeds the content region. -/
def decodeOOBInput : List Byte :=
  bytes [0, 0, 1, 0, 0, 0, 0, 0, 0, 0, 0, 0, 0, 0, 0, 0, 0, 3, 0, 1, 0, 2, 9, 9]

/-- C3: `DecodeCell` does return the dedicated errors for a too-short
input and for a content-length mismatch, but on an input whose header
passes the length check while `randOffset + payloadLen` exceeds the
content region it hits a slice-bounds panic (`none`) instead of
returning an error: the code has no bounds check before
`payloadAndPadding[randOffset : randOffset+payloadLen]`. -/
theorem decode_oob_panics_not_error :
    DecodeCell (bytes [0, 0, 0]) = some (Except.error DErr.tooShort) ∧
    DecodeCell (List.replicate 23 b0) = some (Except.error DErr.lengthMismatch) ∧
    DecodeCell decodeOOBInput = none := by
  refine ⟨rfl, rfl, rfl⟩

/-- The immutable size/smoothing parameters of a `profile.Profile`.  The
traffic-class weights and per-class distributions are not modelled: the
fragmentation oracle supplies the integer value that `dist.Sample()`
returned, so `selectTrafficType` does not influence any modelled
behaviour. -/
structure GoProfile where
  minCellSize : Nat
  maxCellSize : Nat
  ewmaAlpha : ℚ
  latencyJitter : Nat
deriving Repr, DecidableEq

/-- The WebBrowsing profile constants from `GetProfile` (sizes in bytes,
jitter in nanoseconds, `EWMAAlpha = 0.1`). -/
def webProfile : GoProfile :=
  { minCellSize := 64, maxCellSize := 1400, ewmaAlpha := 1 / 10,
    latencyJitter := 20000000 }

/-- `Profile.GetNextPayloadLength` for a given raw distribution sample:
clamp to at most `MaxCellSize - CellHeaderLen`, then to at least 1, and
update the EWMA load (`updateLoad`) with the clamped length normalized
by `MaxCellSize`.  Returns the length together with the new load. -/
def goNextPayloadLength (p : GoProfile) (load : ℚ) (sample : Nat) : Nat × ℚ :=
  let l1 : Int := if (sample : Int) > (p.maxCellSize : Int) - 20
                  then (p.maxCellSize : Int) - 20 else (sample : Int)
  let l2 : Int := if l1 < 1 then 1 else l1
  let len : Nat := l2.toNat
  (len, load * (1 - p.ewmaAlpha) + ((len : ℚ) / (p.maxCellSize : ℚ)) * p.ewmaAlpha)

/-- `Profile.GetNextCellSize`: `rand.Intn(max-min) + min`; `none` models
the `rand.Intn` panic when `max - min ≤ 0`. -/
def goNextCellSize (p : GoProfile) (u : Nat) : Option Nat :=
  if p.maxCellSize ≤ p.minCellSize then none
  else some (p.minCellSize + u % (p.maxCellSize - p.minCellSize))

/-- `Framer.generateRandomOffset` (current revision): 0 when `max ≤ 1`,
otherwise `rand.Intn(max-1)`, i.e. a value in `[0, max-2]`.  `max` is
the `uint16` cast of the sampled total cell size. -/
def goRandomOffset (max : Nat) (v : Nat) : Nat :=
  if max ≤ 1 then 0 else v % (max - 1)

/-- The random draws one iteration of `Framer.Fragment` consumes: the
distribution sample behind `GetNextPayloadLength`, the `rand.Intn` draw
behind `GetNextCellSize`, the draw behind `generateRandomOffset`, and
the byte stream behind `generatePadding` (the content-shaping of the
padding bytes is irrelevant to the claims, so the oracle supplies the
final bytes directly). -/
structure FragRand where
  paySample : Nat
  sizeSample : Nat
  offSample : Nat
  padBytes : Nat → Byte

/-- The mutable framer state threaded through `Fragment`: the global
`seq` counter (never reset) and the profile's EWMA load. -/
structure FramerState where
  seq : Nat
  load : ℚ
deriving Repr, DecidableEq

/-- One iteration of `Framer.Fragment`'s loop.  Mirrors the current
revision: payload length capped to the remaining bytes with the
end-of-stream flag on the final cell, `paddingLen` computed as
`totalCellSize - 20 - payloadLen` and clamped at zero (`Nat`
subtraction is exactly the clamped Go `int` subtraction), `randOffset`
drawn by `generateRandomOffset(uint16(totalCellSize))`.  Returns the
cell together with the remaining data and the advanced `seq`/load. -/
def fragStep (p : GoProfile) (cid ts : Nat) (r : FragRand) (rem : List Byte)
    (seq : Nat) (load : ℚ) : Option (Cell × List Byte × Nat × ℚ) :=
  let pl := goNextPayloadLength p load r.paySample
  let payloadLen := if rem.length < pl.1 then rem.length else pl.1
  let flags := if rem.length < pl.1 then 1 else 0
  match goNextCellSize p r.sizeSample with
  | none => none
  | some total =>
    let padLen := total - 20 - payloadLen
    some
      ({ cellID := cid, type := 1, flags := flags, seq := seq % 4294967296,
         timestamp := ts, payloadLen := payloadLen % 65536,
         paddingLen := padLen % 65536,
         randOffset := goRandomOffset (total % 65536) r.offSample,
         payload := rem.take payloadLen,
         padding := (List.range padLen).map r.padBytes },
       rem.drop payloadLen, seq + 1, pl.2)

/-- The loop of `Framer.Fragment`, recursing on the oracle list (one
entry per produced cell) and the remaining data. -/
def fragLoop (p : GoProfile) (cid ts : Nat) :
    List FragRand → List Byte → Nat → ℚ → Option (List Cell × Nat × ℚ)
  | _, [], seq, load => some ([], seq, load)
  | [], _ :: _, _, _ => none
  | r :: rs, rem@(_ :: _), seq, load =>
    match fragStep p cid ts r rem seq load with
    | none => none
    | some (cell, rem', seq', load') =>
      match fragLoop p cid ts rs rem' seq' load' with
      | none => none
      | some (cells, seq'', load'') => some (cell :: cells, seq'', load'')

/-- `Framer.Fragment`: fragments `data` into cells sharing the supplied
random `cellID`, starting from the framer's current state.  `none`
models either a `GetNextCellSize` panic or exhaustion of the supplied
randomness. -/
def Fragment (p : GoProfile) (rands : List FragRand) (cid ts : Nat)
    (st : FramerState) (data : List Byte) : Option (List Cell × FramerState) :=
  match fragLoop p cid ts rands data st.seq st.load with
  | none => none
  | some (cells, seq', load') => some (cells, ⟨seq', load'⟩)

/-- `Framer.CreateDummyCell`: zero payload, `cellID = 0`, type Dummy,
`paddingLen = totalCellSize - 20` (no clamp; the `uint16` cast of a
negative value is modelled with `Int.emod`), offset drawn like
`Fragment`'s. -/
def CreateDummyCell (p : GoProfile) (r : FragRand) (ts : Nat) : Option Cell :=
  match goNextCellSize p r.sizeSample with
  | none => none
  | some total =>
    let padLenI : Int := (total : Int) - 20
    some
      { cellID := 0, type := 4, flags := 0, seq := 0, timestamp := ts,
        payloadLen := 0, paddingLen := (padLenI % 65536).toNat,
        randOffset := goRandomOffset (total % 65536) r.offSample,
        payload := [],
        padding := if padLenI ≤ 0 then []
                   else (List.range padLenI.toNat).map r.padBytes }

/-- The cell invariant of the specification: `randOffset` lies inside
the combined content region (and is 0 when that region is empty), and
the payload window `[randOffset, randOffset+payloadLen)` fits inside
it. -/
def cellInvB (c : Cell) : Bool :=
  (if c.payloadLen + c.paddingLen = 0 then c.randOffset = 0
   else c.randOffset < c.payloadLen + c.paddingLen) &&
  decide (c.randOffset + c.payloadLen ≤ c.payloadLen + c.paddingLen)

/-- An oracle draw under which `generateRandomOffset(64)` returns 62. -/
def fragRandC4 : FragRand :=
  { paySample := 5, sizeSample := 0, offSample := 62, padBytes := fun _ => b0 }

/-- C4: a cell built by `Fragment` (and likewise one built by
`CreateDummyCell`) can violate the cell invariant:
`generateRandomOffset` is called with the whole sampled cell size
(header included) rather than the content length, so with total size 64
it can return 62 while the content region is only
`payloadLen + paddingLen = 1 + 43 = 44` (resp. `44`) bytes. -/
theorem fragment_cell_invariant_violated :
    ((Fragment webProfile [fragRandC4] 1 0 ⟨0, 0⟩ (bytes [72])).map
        (fun pr => pr.1.all cellInvB)) = some false ∧
    ((CreateDummyCell webProfile fragRandC4 0).map cellInvB) = some false := by
  constructor
  · rfl
  · rfl

/-- Per-`cellID` reassembly state: the accumulation buffer and the last
accepted sequence number. -/
structure RStream where
  buffer : List Byte
  lastSeq : Nat
deriving Repr, DecidableEq

/-- The `streams` map of the multi-stream `Reassembler`, as an
association list keyed by `cellID`. -/
abbrev RMap := List (Nat × RStream)

def rlookup : RMap → Nat → Option RStream
  | [], _ => none
  | (k, v) :: rest, key => if k = key then some v else rlookup rest key

def rinsert : RMap → Nat → RStream → RMap
  | [], key, v => [(key, v)]
  | (k, w) :: rest, key, v =>
    if k = key then (key, v) :: rest else (k, w) :: rinsert rest key v

def rerase : RMap → Nat → RMap
  | [], _ => []
  | (k, w) :: rest, key =>
    if k = key then rerase rest key else (k, w) :: rerase rest key

/-- `Reassembler.ProcessCell` (multi-stream revision): look up or create
the stream for `cell.CellID` (a new stream starts with
`lastSeq = cell.Seq - 1` in `uint32` arithmetic), accept the cell only
when `seq = lastSeq + 1` (`uint32`), append the payload, and on the
end-of-stream flag return the buffer and delete the stream.  The first
component is the Go `([]byte, error)` return: `.error ()` is the
out-of-order error (`nil` bytes), `.ok none` is "incomplete", and
`.ok (some buf)` is a completed stream. -/
def ProcessCell (m : RMap) (c : Cell) :
    Except Unit (Option (List Byte)) × RMap :=
  let fetched : RStream × RMap :=
    match rlookup m c.cellID with
    | some st => (st, m)
    | none =>
      let st : RStream := ⟨[], (c.seq + 4294967295) % 4294967296⟩
      (st, rinsert m c.cellID st)
  let st := fetched.1
  let m1 := fetched.2
  if c.seq ≠ (st.lastSeq + 1) % 4294967296 then (Except.error (), m1)
  else
    let buf := st.buffer ++ c.payload
    if c.flags % 2 = 1 then (Except.ok (some buf), rerase m1 c.cellID)
    else (Except.ok none, rinsert m1 c.cellID ⟨buf, c.seq⟩)

/-- C6: for a cell addressed to an existing stream, `ProcessCell`
rejects any `seq` other than `lastSeq + 1` with an error and leaves the
reassembler state (buffer and `lastSeq` of every stream) unchanged, and
a subsequently delivered cell with the correct next `seq` for that
stream is still accepted. -/
theorem processCell_out_of_order_rejected (m : RMap) (c c' : Cell) (st : RStream)
    (hlk : rlookup m c.cellID = some st)
    (hbad : c.seq ≠ (st.lastSeq + 1) % 4294967296)
    (hcid : c'.cellID = c.cellID)
    (hgood : c'.seq = (st.lastSeq + 1) % 4294967296) :
    ProcessCell m c = (Except.error (), m) ∧
    (ProcessCell (ProcessCell m c).2 c').1 ≠ Except.error () := by
  have h1 : ProcessCell m c = (Except.error (), m) := by
    unfold ProcessCell
    simp only [hlk]
    simp [hbad]
  refine ⟨h1, ?_⟩
  rw [h1]
  unfold ProcessCell
  simp only [hcid, hlk, hgood]
  by_cases hf : c'.flags % 2 = 1 <;> simp [hf]

/-- C6 witness: a stream at `lastSeq = 3` rejects a cell with `seq = 9`
without advancing, then accepts a cell with `seq = 4`. -/
theorem processCell_out_of_order_rejected_witness :
    ProcessCell [(5, ⟨bytes [1], 3⟩)]
        { cellID := 5, type := 1, flags := 0, seq := 9, timestamp := 0,
          payloadLen := 0, paddingLen := 0, randOffset := 0,
          payload := [], padding := [] } =
      (Except.error (), [(5, ⟨bytes [1], 3⟩)]) ∧
    (ProcessCell
        (ProcessCell [(5, ⟨bytes [1], 3⟩)]
          { cellID := 5, type := 1, flags := 0, seq := 9, timestamp := 0,
            payloadLen := 0, paddingLen := 0, randOffset := 0,
            payload := [], padding := [] }).2
        { cellID := 5, type := 1, flags := 0, seq := 4, timestamp := 0,
          payloadLen := 0, paddingLen := 0, randOffset := 0,
          payload := bytes [2], padding := [] }).1 ≠ Except.error () :=
  processCell_out_of_order_rejected _ _ _ ⟨bytes [1], 3⟩ rfl
    (by decide) rfl (by decide)

/-- C10: a cell whose `cellID` has no existing stream is always
accepted, whatever its `seq`: the fresh stream is created with
`lastSeq = seq - 1` (uint32), so the acceptance check
`seq = lastSeq + 1` holds for every starting sequence number —
in particular for the framer's never-reset global counter. -/
theorem processCell_new_stream_accepts_any_seq (m : RMap) (c : Cell)
    (hlk : rlookup m c.cellID = none) (hs : c.seq < 4294967296) :
    (ProcessCell m c).1 ≠ Except.error () := by
  unfold ProcessCell
  simp only [hlk]
  have hseq : c.seq = ((c.seq + 4294967295) % 4294967296 + 1) % 4294967296 := by
    omega
  simp only [← hseq, ne_eq, not_true_eq_false, if_false, ite_not]
  by_cases hf : c.flags % 2 = 1 <;> simp [hf]

/-- C10 witness: an empty reassembler accepts a first cell with the
arbitrary starting sequence number 7. -/
theorem processCell_new_stream_accepts_any_seq_witness :
    (ProcessCell []
        { cellID := 9, type := 1, flags := 0, seq := 7, timestamp := 0,
          payloadLen := 0, paddingLen := 0, randOffset := 0,
          payload := [], padding := [] }).1 ≠ Except.error () :=
  processCell_new_stream_accepts_any_seq [] _ rfl (by decide)

/-- The `Scheduler` state: a plain FIFO queue of cells and the single
`lastSendTime` field (the code keeps no per-cell priority).  Times are
absolute nanosecond instants. -/
structure Sched where
  queue : List Cell
  lastSendTime : Nat
deriving Repr, DecidableEq

/-- `Scheduler.ScheduleCell`: draw `jitter = rand.Int63n(LatencyJitter)`
(`none` models the `Int63n` panic when the jitter bound is 0), append
the cell to the queue, and overwrite `lastSendTime` with
`now + jitter` — regardless of the cell's type. -/
def ScheduleCell (p : GoProfile) (s : Sched) (now jitterSample : Nat)
    (c : Cell) : Option Sched :=
  if p.latencyJitter = 0 then none
  else some { queue := s.queue ++ [c],
              lastSendTime := now + jitterSample % p.latencyJitter }

/-- `Scheduler.GetNextCell`: return nothing while `now` is strictly
before `lastSendTime`, otherwise pop the front of the FIFO queue. -/
def GetNextCell (s : Sched) (now : Nat) : Option Cell × Sched :=
  if now < s.lastSendTime then (none, s)
  else
    match s.queue with
    | [] => (none, s)
    | c :: rest => (some c, { s with queue := rest })

/-- A cover cell (type Dummy) used in the scheduler counterexample. -/
def dummyCellC7 : Cell :=
  { cellID := 0, type := 4, flags := 0, seq := 0, timestamp := 0,
    payloadLen := 0, paddingLen := 0, randOffset := 0,
    payload := [], padding := [] }

/-- A real-data cell used in the scheduler counterexample. -/
def dataCellC7 : Cell :=
  { cellID := 1, type := 1, flags := 1, seq := 0, timestamp := 0,
    payloadLen := 0, paddingLen := 0, randOffset := 0,
    payload := [], padding := [] }

/-- C7: scheduling a Dummy cell and then a Data cell at the same
instant (both with zero sampled jitter) and polling at that instant
yields the Dummy cell first: the scheduler is a FIFO with a single
`lastSendTime` gate and gives cover traffic no `probingInterval`
deprioritization. -/
theorem scheduler_returns_dummy_before_data :
    ((ScheduleCell webProfile ⟨[], 0⟩ 0 0 dummyCellC7).bind fun s1 =>
      (ScheduleCell webProfile s1 0 0 dataCellC7).map fun s2 =>
        (GetNextCell s2 0).1) = some (some dummyCellC7) ∧
    dummyCellC7.type = 4 ∧ dataCellC7.type = 1 := by
  refine ⟨rfl, rfl, rfl⟩

/-- Feed each cell of a fragment batch through
`EncodeCell → DecodeCell → ProcessCell` in order, concatenating every
completed stream the reassembler emits; `none` when any stage panics or
returns an error. -/
def pipeLoop : List Cell → RMap → List Byte → Option (List Byte)
  | [], _, acc => some acc
  | c :: cs, m, acc =>
    match EncodeCell c with
    | none => none
    | some bs =>
      match DecodeCell bs with
      | some (Except.ok c') =>
        match ProcessCell m c' with
        | (Except.ok out, m') => pipeLoop cs m' (acc ++ out.getD [])
        | (Except.error _, _) => none
      | _ => none

/-- The fragmentation/reassembly identity pipeline of the spec:
`Fragment`, then `encode → decode → ProcessCell` per cell in order. -/
def fragmentPipeline (p : GoProfile) (rands : List FragRand) (cid ts : Nat)
    (st : FramerState) (data : List Byte) : Option (List Byte) :=
  match Fragment p rands cid ts st data with
  | none => none
  | some (cells, _) => pipeLoop cells [] []

/-- An oracle draw with zero randomized offset, so `EncodeCell` itself
succeeds on the produced cell. -/
def fragRandC2 : FragRand :=
  { paySample := 5, sizeSample := 0, offSample := 0, padBytes := fun _ => b0 }

/-- C2: the fragment → encode → decode → reassemble pipeline does not
reproduce the one-byte input `[72]`: it aborts with no output, because
`DecodeCell` rejects every `EncodeCell` output with a content-length
mismatch (22 header bytes written, 20 stripped). -/
theorem fragment_pipeline_loses_data :
    fragmentPipeline webProfile [fragRandC2] 1 0 ⟨0, 0⟩ (bytes [72]) = none := by
  rfl

/-- The smoothed load after a sequence of `GetNextPayloadLength` calls
whose raw distribution samples are `ss`, starting from `load`. -/
def loadAfter (p : GoProfile) : List Nat → ℚ → ℚ
  | [], load => load
  | s :: ss, load => loadAfter p ss (goNextPayloadLength p load s).2

lemma goNextPayloadLength_len_bounds (p : GoProfile)
    (hmax : 21 ≤ p.maxCellSize) (load : ℚ) (s : Nat) :
    1 ≤ (goNextPayloadLength p load s).1 ∧
    (goNextPayloadLength p load s).1 ≤ p.maxCellSize - 20 := by
  unfold goNextPayloadLength
  dsimp only
  split_ifs <;> constructor <;> omega

lemma goNextPayloadLength_snd (p : GoProfile) (load : ℚ) (s : Nat) :
    (goNextPayloadLength p load s).2 =
      load * (1 - p.ewmaAlpha) +
        (((goNextPayloadLength p load s).1 : ℚ) / (p.maxCellSize : ℚ)) *
          p.ewmaAlpha := rfl

lemma goNextPayloadLength_load_step (p : GoProfile)
    (hmax : 21 ≤ p.maxCellSize) (hα0 : 0 ≤ p.ewmaAlpha)
    (hα1 : p.ewmaAlpha ≤ 1) (load : ℚ) (s : Nat)
    (h0 : 0 ≤ load) (h1 : load ≤ 1) :
    0 ≤ (goNextPayloadLength p load s).2 ∧
    (goNextPayloadLength p load s).2 ≤ 1 := by
  obtain ⟨hl1, hl2⟩ := goNextPayloadLength_len_bounds p hmax load s
  rw [goNextPayloadLength_snd]
  have hmq : (0 : ℚ) < (p.maxCellSize : ℚ) := by
    exact_mod_cast Nat.lt_of_lt_of_le (by norm_num) hmax
  have hq1 : (0 : ℚ) ≤ ((goNextPayloadLength p load s).1 : ℚ) / (p.maxCellSize : ℚ) :=
    div_nonneg (by positivity) (le_of_lt hmq)
  have hq2 : ((goNextPayloadLength p load s).1 : ℚ) / (p.maxCellSize : ℚ) ≤ 1 := by
    rw [div_le_one hmq]
    exact_mod_cast Nat.le_trans hl2 (Nat.sub_le _ _)
  constructor
  · have t1 : (0 : ℚ) ≤ load * (1 - p.ewmaAlpha) := mul_nonneg h0 (by linarith)
    have t2 : (0 : ℚ) ≤ (((goNextPayloadLength p load s).1 : ℚ) /
        (p.maxCellSize : ℚ)) * p.ewmaAlpha := mul_nonneg hq1 hα0
    linarith
  · have t1 : load * (1 - p.ewmaAlpha) ≤ 1 * (1 - p.ewmaAlpha) :=
      mul_le_mul_of_nonneg_right h1 (by linarith)
    have t2 : (((goNextPayloadLength p load s).1 : ℚ) /
        (p.maxCellSize : ℚ)) * p.ewmaAlpha ≤ 1 * p.ewmaAlpha :=
      mul_le_mul_of_nonneg_right hq2 hα0
    linarith

lemma loadAfter_bounds (p : GoProfile) (hmax : 21 ≤ p.maxCellSize)
    (hα0 : 0 ≤ p.ewmaAlpha) (hα1 : p.ewmaAlpha ≤ 1) :
    ∀ (ss : List Nat) (load : ℚ), 0 ≤ load → load ≤ 1 →
      0 ≤ loadAfter p ss load ∧ loadAfter p ss load ≤ 1
  | [], load, h0, h1 => ⟨h0, h1⟩
  | s :: ss, load, h0, h1 => by
    obtain ⟨g0, g1⟩ := goNextPayloadLength_load_step p hmax hα0 hα1 load s h0 h1
    exact loadAfter_bounds p hmax hα0 hα1 ss _ g0 g1

/-- C8: under a profile with `maxCellSize ≥ 21` and a smoothing factor
in `[0,1]`, every `GetNextPayloadLength` call returns a length in
`[1, maxCellSize - 20]`, and starting from load 0 the smoothed load
stays in `[0,1]` after every sequence of calls. -/
theorem payload_length_and_load_bounded (p : GoProfile)
    (hmax : 21 ≤ p.maxCellSize) (hα0 : 0 ≤ p.ewmaAlpha)
    (hα1 : p.ewmaAlpha ≤ 1) :
    (∀ (load : ℚ) (s : Nat),
        1 ≤ (goNextPayloadLength p load s).1 ∧
        (goNextPayloadLength p load s).1 ≤ p.maxCellSize - 20) ∧
    (∀ ss : List Nat, 0 ≤ loadAfter p ss 0 ∧ loadAfter p ss 0 ≤ 1) :=
  ⟨fun load s => goNextPayloadLength_len_bounds p hmax load s,
   fun ss => loadAfter_bounds p hmax hα0 hα1 ss 0 (le_refl 0) (by norm_num)⟩

/-- C8 witness: the WebBrowsing profile (`maxCellSize = 1400`,
`α = 0.1`) on the raw sample 5000 and the sample sequence `[30, 5000]`. -/
theorem payload_length_and_load_bounded_witness :
    (1 ≤ (goNextPayloadLength webProfile 0 5000).1 ∧
      (goNextPayloadLength webProfile 0 5000).1 ≤ webProfile.maxCellSize - 20) ∧
    (0 ≤ loadAfter webProfile [30, 5000] 0 ∧ loadAfter webProfile [30, 5000] 0 ≤ 1) :=
  ⟨(payload_length_and_load_bounded webProfile (by norm_num [webProfile])
      (by norm_num [webProfile]) (by norm_num [webProfile])).1 0 5000,
   (payload_length_and_load_bounded webProfile (by norm_num [webProfile])
      (by norm_num [webProfile]) (by norm_num [webProfile])).2 [30, 5000]⟩

lemma goNextPayloadLength_le_max (p : GoProfile) (load : ℚ) (s : Nat) :
    (goNextPayloadLength p load s).1 ≤ max 1 (p.maxCellSize - 20) := by
  unfold goNextPayloadLength
  dsimp only
  split_ifs <;> omega

lemma goNextCellSize_lt (p : GoProfile) (u total : Nat)
    (h : goNextCellSize p u = some total) : total < p.maxCellSize := by
  unfold goNextCellSize at h
  by_cases hle : p.maxCellSize ≤ p.minCellSize
  · rw [if_pos hle] at h
    exact Option.noConfusion h
  · rw [if_neg hle] at h
    have hmod : u % (p.maxCellSize - p.minCellSize) < p.maxCellSize - p.minCellSize :=
      Nat.mod_lt _ (by omega)
    have := Option.some.inj h
    omega

lemma fragStep_padding (p : GoProfile) (hmax : p.maxCellSize ≤ 65535)
    (cid ts : Nat) (r : FragRand) (rem : List Byte) (seq : Nat) (load : ℚ)
    (cell : Cell) (rem' : List Byte) (seq' : Nat) (load' : ℚ)
    (h : fragStep p cid ts r rem seq load = some (cell, rem', seq', load')) :
    ∃ total, goNextCellSize p r.sizeSample = some total ∧
      (cell.paddingLen : ℤ) = max 0 ((total : ℤ) - 20 - (cell.payloadLen : ℤ)) ∧
      cell.padding.length = cell.paddingLen := by
  unfold fragStep at h
  cases hsz : goNextCellSize p r.sizeSample with
  | none => rw [hsz] at h; exact absurd h (by simp)
  | some total =>
    rw [hsz] at h
    simp only [Option.some_inj, Prod.mk.injEq] at h
    obtain ⟨hc, -, -, -⟩ := h
    subst hc
    have htot : total < 65536 :=
      Nat.lt_of_lt_of_le (goNextCellSize_lt p r.sizeSample total hsz) (by omega)
    have hpl : (goNextPayloadLength p load r.paySample).1 ≤ max 1 (p.maxCellSize - 20) :=
      goNextPayloadLength_le_max p load r.paySample
    refine ⟨total, rfl, ?_, ?_⟩
    · simp only
      split_ifs with hcap
      · -- payloadLen = rem.length (capped); rem.length < sample ≤ 65515
        have : rem.length < 65536 := by omega
        rw [Nat.mod_eq_of_lt this, Nat.mod_eq_of_lt (by omega)]
        omega
      · have : (goNextPayloadLength p load r.paySample).1 < 65536 := by omega
        rw [Nat.mod_eq_of_lt this, Nat.mod_eq_of_lt (by omega)]
        omega
    · simp only [List.length_map, List.length_range]
      split_ifs with hcap <;> rw [Nat.mod_eq_of_lt (by omega)]

lemma fragLoop_padding (p : GoProfile) (hmax : p.maxCellSize ≤ 65535)
    (cid ts : Nat) :
    ∀ (rands : List FragRand) (rem : List Byte) (seq : Nat) (load : ℚ)
      (cells : List Cell) (seq' : Nat) (load' : ℚ),
      fragLoop p cid ts rands rem seq load = some (cells, seq', load') →
      ∀ (i : Nat) (c : Cell) (r : FragRand),
        cells.get? i = some c → rands.get? i = some r →
        ∃ total, goNextCellSize p r.sizeSample = some total ∧
          (c.paddingLen : ℤ) = max 0 ((total : ℤ) - 20 - (c.payloadLen : ℤ)) ∧
          c.padding.length = c.paddingLen := by
  intro rands
  induction rands with
  | nil =>
    intro rem seq load cells seq' load' h i c r hc hr
    exact absurd hr (by simp)
  | cons r0 rs ih =>
    intro rem seq load cells seq' load' h i c r hc hr
    cases rem with
    | nil =>
      simp only [fragLoop, Option.some_inj, Prod.mk.injEq] at h
      obtain ⟨hcells, -, -⟩ := h
      rw [← hcells] at hc
      exact absurd hc (by simp)
    | cons b bs =>
      rw [show fragLoop p cid ts (r0 :: rs) (b :: bs) seq load =
            match fragStep p cid ts r0 (b :: bs) seq load with
            | none => none
            | some (cell, rem', seq1, load1) =>
              match fragLoop p cid ts rs rem' seq1 load1 with
              | none => none
              | some (cells0, seq2, load2) =>
                some (cell :: cells0, seq2, load2) from rfl] at h
      cases hstep : fragStep p cid ts r0 (b :: bs) seq load with
      | none => rw [hstep] at h; exact Option.noConfusion h
      | some out =>
        obtain ⟨cell, rem', seq1, load1⟩ := out
        simp only [hstep] at h
        cases hrec : fragLoop p cid ts rs rem' seq1 load1 with
        | none => simp only [hrec] at h; exact Option.noConfusion h
        | some out2 =>
          obtain ⟨cells0, seq2, load2⟩ := out2
          simp only [hrec, Option.some_inj, Prod.mk.injEq] at h
          obtain ⟨hcells, -, -⟩ := h
          rw [← hcells] at hc
          cases i with
          | zero =>
            simp only [List.get?] at hc hr
            rw [Option.some_inj] at hc hr
            rw [← hc, ← hr]
            exact fragStep_padding p hmax cid ts r0 (b :: bs) seq load
              cell rem' seq1 load1 hstep
          | succ j =>
            simp only [List.get?] at hc hr
            exact ih rem' seq1 load1 cells0 seq2 load2 hrec j c r hc hr

/-- C5: every cell produced by `Fragment` has
`paddingLen = max(0, totalCellSize - 20 - payloadLen)` for the cell
size sampled in its iteration — the negative case is clamped to zero —
and its padding buffer has exactly that (never negative) length.
(`maxCellSize ≤ 65535` rules out `uint16` wrap-around of the stored
field, which holds for every profile the code constructs.) -/
theorem fragment_padding_clamped (p : GoProfile) (rands : List FragRand)
    (cid ts : Nat) (st : FramerState) (data : List Byte)
    (cells : List Cell) (st' : FramerState)
    (hmax : p.maxCellSize ≤ 65535)
    (hfrag : Fragment p rands cid ts st data = some (cells, st')) :
    ∀ (i : Nat) (c : Cell) (r : FragRand),
      cells.get? i = some c → rands.get? i = some r →
      ∃ total, goNextCellSize p r.sizeSample = some total ∧
        (c.paddingLen : ℤ) = max 0 ((total : ℤ) - 20 - (c.payloadLen : ℤ)) ∧
        c.padding.length = c.paddingLen := by
  intro i c r hc hr
  unfold Fragment at hfrag
  cases hloop : fragLoop p cid ts rands data st.seq st.load with
  | none => rw [hloop] at hfrag; exact absurd hfrag (by simp)
  | some out =>
    obtain ⟨cells0, seq', load'⟩ := out
    rw [hloop] at hfrag
    simp only [Option.some_inj, Prod.mk.injEq] at hfrag
    obtain ⟨hcells, -⟩ := hfrag
    rw [← hcells] at hc
    exact fragLoop_padding p hmax cid ts rands data st.seq st.load
      cells0 seq' load' hloop i c r hc hr

/-- The single cell `Fragment` produces for the one-byte input `[72]`
under the `fragRandC2` oracle draw. -/
def cellC5 : Cell :=
  { cellID := 1, type := 1, flags := 1, seq := 0, timestamp := 0,
    payloadLen := 1, paddingLen := 43, randOffset := 0,
    payload := bytes [72], padding := (List.range 43).map (fun _ => b0) }

/-- The framer state after that fragment call. -/
def stC5 : FramerState :=
  ((Fragment webProfile [fragRandC2] 1 0 ⟨0, 0⟩ (bytes [72])).getD
    ([], ⟨0, 0⟩)).2

/-- C5 witness: the WebBrowsing profile fragmenting `[72]` with the
concrete oracle `fragRandC2` (sampled cell size 64) yields padding
length `43 = max(0, 64 - 20 - 1)`. -/
theorem fragment_padding_clamped_witness :
    ∃ total, goNextCellSize webProfile fragRandC2.sizeSample = some total ∧
      (cellC5.paddingLen : ℤ) = max 0 ((total : ℤ) - 20 - (cellC5.payloadLen : ℤ)) ∧
      cellC5.padding.length = cellC5.paddingLen :=
  fragment_padding_clamped webProfile [fragRandC2] 1 0 ⟨0, 0⟩ (bytes [72])
    [cellC5] stC5 (by norm_num [webProfile]) rfl
    0 cellC5 fragRandC2 rfl rfl

/-- The traffic classes of `profile.TrafficType`. -/
inductive TrafficType
  | webBrowsing
  | videoStreaming
  | fileDownload
  | dynamic
deriving Repr, DecidableEq

/-- Build one Viterbi column by iterating over the state list; `none`
models an index-out-of-range panic in any entry. -/
def colMap : List TrafficType → (TrafficType → Option ℚ) → Option (List ℚ)
  | [], _ => some []
  | s :: l, f =>
    match f s, colMap l f with
    | some q, some qs => some (q :: qs)
    | _, _ => none

/-- One recursion step (time `t ≥ 1`) of the Viterbi loop in
`HMMClassifier.Predict`: for each current state, the maximum over
previous states of `score * transition` (the code's
`log` sums are modelled in the order-isomorphic product domain; the
`-math.MaxFloat64` sentinel becomes `-1`, below every product of
probabilities), multiplied by the emission probability of the observed
bucket — a panic (`none`) when the bucket is out of range for some
emission row. -/
def viterbiStep (states : List TrafficType) (emis : TrafficType → List ℚ)
    (trans : TrafficType → TrafficType → ℚ) (col : List ℚ) (o : Nat) :
    Option (List ℚ) :=
  colMap states (fun si =>
    ((emis si).get? o).map (fun e =>
      (((col.zip states).map (fun pr => pr.1 * trans pr.2 si)).foldl
          (fun a q => if q > a then q else a) (-1)) * e))

/-- The Viterbi recursion over the remaining observations. -/
def viterbiFold (states : List TrafficType) (emis : TrafficType → List ℚ)
    (trans : TrafficType → TrafficType → ℚ) :
    List Nat → List ℚ → Option (List ℚ)
  | [], col => some col
  | o :: os, col =>
    match viterbiStep states emis trans col o with
    | none => none
    | some col' => viterbiFold states emis trans os col'

/-- The termination loop of `Predict`: scan the final column with the
code's `maxProb`/`lastState` pair (sentinel `-1`, initial index 0). -/
def argmaxAux : List ℚ → Nat → ℚ × Nat → ℚ × Nat
  | [], _, acc => acc
  | v :: vs, i, acc => argmaxAux vs (i + 1) (if v > acc.1 then (v, i) else acc)

/-- `HMMClassifier.Predict`: empty observations return the
"observations cannot be empty" error; otherwise run the Viterbi
initialization (uniform `1/numStates` prior times the first emission),
the recursion, and return the state with the best final score.  `none`
models the panics on an out-of-range bucket or an empty state list. -/
def Predict (states : List TrafficType) (emis : TrafficType → List ℚ)
    (trans : TrafficType → TrafficType → ℚ) (obs : List Nat) :
    Option (Except Unit TrafficType) :=
  match obs with
  | [] => some (Except.error ())
  | o0 :: rest =>
    match colMap states (fun s =>
        ((emis s).get? o0).map (fun e => (1 / (states.length : ℚ)) * e)) with
    | none => none
    | some c0 =>
      match viterbiFold states emis trans rest c0 with
      | none => none
      | some colT =>
        (states.get? (argmaxAux colT 0 (-1, 0)).2).map Except.ok

lemma colMap_isSome (l : List TrafficType) (f : TrafficType → Option ℚ)
    (h : ∀ s ∈ l, (f s).isSome) :
    ∃ qs, colMap l f = some qs ∧ qs.length = l.length := by
  induction l with
  | nil => exact ⟨[], rfl, rfl⟩
  | cons s l ih =>
    obtain ⟨q, hq⟩ := Option.isSome_iff_exists.mp (h s (List.mem_cons_self s l))
    obtain ⟨qs, hqs, hlen⟩ := ih (fun x hx => h x (List.mem_cons_of_mem s hx))
    exact ⟨q :: qs, by simp [colMap, hq, hqs], by simp [hlen]⟩

lemma viterbiStep_isSome (states : List TrafficType)
    (emis : TrafficType → List ℚ) (trans : TrafficType → TrafficType → ℚ)
    (col : List ℚ) (o : Nat)
    (ho : ∀ s ∈ states, o < (emis s).length) :
    ∃ col', viterbiStep states emis trans col o = some col' ∧
      col'.length = states.length := by
  apply colMap_isSome
  intro s hs
  cases hg : (emis s).get? o with
  | none =>
    exfalso
    rw [List.get?_eq_get (ho s hs)] at hg
    exact Option.noConfusion hg
  | some e => simp [hg]

lemma viterbiFold_isSome (states : List TrafficType)
    (emis : TrafficType → List ℚ) (trans : TrafficType → TrafficType → ℚ)
    (os : List Nat) (col : List ℚ)
    (ho : ∀ o ∈ os, ∀ s ∈ states, o < (emis s).length)
    (hcol : col.length = states.length) :
    ∃ colT, viterbiFold states emis trans os col = some colT ∧
      colT.length = states.length := by
  induction os generalizing col with
  | nil => exact ⟨col, rfl, hcol⟩
  | cons o os ih =>
    obtain ⟨col', hc', hlen'⟩ := viterbiStep_isSome states emis trans col o
      (ho o (List.mem_cons_self o os))
    obtain ⟨colT, hT, hTlen⟩ := ih col'
      (fun x hx s hs => ho x (List.mem_cons_of_mem o hx) s hs) hlen'
    exact ⟨colT, by simp [viterbiFold, hc', hT], hTlen⟩

lemma argmaxAux_lt (n : Nat) :
    ∀ (vs : List ℚ) (i : Nat) (acc : ℚ × Nat),
      acc.2 < n → i + vs.length ≤ n → (argmaxAux vs i acc).2 < n
  | [], _, _, hacc, _ => hacc
  | v :: vs, i, acc, hacc, hlen => by
    simp only [argmaxAux]
    apply argmaxAux_lt n vs (i + 1)
    · by_cases hv : v > acc.1 <;> simp [hv]
      · simp only [List.length_cons] at hlen
        omega
      · exact hacc
    · simp only [List.length_cons] at hlen
      omega

/-- C9: `Predict` fails exactly on the empty observation sequence: for
a non-empty set of states whose emission rows cover every observed
bucket, a non-empty observation sequence always produces a class (no
error, no panic), and — the embedding being a pure function of the
probability tables and the observations, with all loops ranging over
the ordered state list rather than Go maps — two runs with the same
tables and observations return the same class. -/
theorem predict_error_iff_empty (states : List TrafficType)
    (emis : TrafficType → List ℚ) (trans : TrafficType → TrafficType → ℚ)
    (obs : List Nat) (hne : states ≠ [])
    (hobs : ∀ o ∈ obs, ∀ s ∈ states, o < (emis s).length) :
    (obs = [] → Predict states emis trans obs = some (Except.error ())) ∧
    (obs ≠ [] → ∃ t, Predict states emis trans obs = some (Except.ok t)) ∧
    Predict states emis trans obs = Predict states emis trans obs := by
  refine ⟨fun h => by subst h; rfl, ?_, rfl⟩
  intro h
  obtain ⟨o0, rest, rfl⟩ := List.exists_cons_of_ne_nil h
  obtain ⟨c0, hc0, hc0len⟩ := colMap_isSome states
    (fun s => ((emis s).get? o0).map (fun e => (1 / (states.length : ℚ)) * e))
    (by
      intro s hs
      show (Option.map _ ((emis s).get? o0)).isSome = true
      rw [List.get?_eq_get (hobs o0 (List.mem_cons_self o0 rest) s hs)]
      rfl)
  obtain ⟨colT, hT, hTlen⟩ := viterbiFold_isSome states emis trans rest c0
    (fun x hx s hs => hobs x (List.mem_cons_of_mem o0 hx) s hs) hc0len
  have hidx : (argmaxAux colT 0 (-1, 0)).2 < states.length := by
    apply argmaxAux_lt
    · exact List.length_pos.mpr hne
    · omega
  refine ⟨states.get ⟨_, hidx⟩, ?_⟩
  unfold Predict
  simp only [hc0, hT, List.get?_eq_get hidx, Option.map_some']

/-- The state list of `NewHMMClassifier`. -/
def hmmStates : List TrafficType :=
  [TrafficType.webBrowsing, TrafficType.videoStreaming, TrafficType.fileDownload]

/-- C9 witness: concrete three-bucket tables and the observation
sequence `[0, 2, 1]` produce a class. -/
theorem predict_error_iff_empty_witness :
    ∃ t, Predict hmmStates (fun _ => [7 / 10, 1 / 4, 1 / 20])
        (fun _ _ => 1 / 3) [0, 2, 1] = some (Except.ok t) :=
  (predict_error_iff_empty hmmStates (fun _ => [7 / 10, 1 / 4, 1 / 20])
      (fun _ _ => 1 / 3) [0, 2, 1] (by simp [hmmStates])
      (by
        intro o ho s hs
        simp only [List.length_cons, List.length_nil]
        fin_cases ho <;> omega)).2.1 (by simp)
